import Mathlib

/-!
# Verification of the declarative UI-binding engine (`src/app/static/vendor/htmx.js`)

A shallow embedding of the engine's pure core: trigger parsing, parameter
collection, target resolution, swap application, request-URL construction and
the per-firing effect trace of `requestFor`.  JavaScript strings are modelled
as Lean `String`/`List Char`; the handful of platform primitives the source
calls (`String.prototype.split/trim/replace/includes`, `URLSearchParams`,
`Number`, DOM `innerHTML`/`outerHTML` assignment) are modelled by explicit
executable definitions next to the function that uses them.
-/

namespace Htmx

/-- Model of `value.split(",")` on the character list of a JS string:
splits at every comma, keeping empty groups (JS semantics). -/
def splitOnComma : List Char → List (List Char)
  | [] => [[]]
  | ',' :: rest => [] :: splitOnComma rest
  | c :: rest =>
    match splitOnComma rest with
    | [] => [[c]]
    | g :: gs => (c :: g) :: gs

/-- Model of `String.prototype.trim` (ASCII whitespace) on a character list. -/
def jsTrim (cs : List Char) : List Char :=
  ((cs.dropWhile Char.isWhitespace).reverse.dropWhile Char.isWhitespace).reverse

/-- Model of `s.replace(pat, "")` with a string pattern: removes the first
occurrence of `pat` (JS `replace` with a string pattern replaces only the
first occurrence). -/
def removeFirst (pat : List Char) : List Char → List Char
  | [] => []
  | c :: cs =>
    if pat.isPrefixOf (c :: cs) then (c :: cs).drop pat.length
    else c :: removeFirst pat cs

/-- JS string truthiness for a nullable attribute value: `null` and `""` are
falsy, every other string is truthy. -/
def jsTruthy : Option String → Bool
  | none => false
  | some s => s ≠ ""

/-- Model of `a || d` on a nullable string `a` and a default `d`. -/
def jsOrDefault (a : Option String) (d : String) : String :=
  match a with
  | none => d
  | some s => if s = "" then d else s

/-- Model of `a || b` on two JS strings: `b` when `a` is empty. -/
def jsOrStr (a b : String) : String := if a = "" then b else a

/-- Whether `sub` occurs as a contiguous run inside `l`. -/
def containsList (sub : List Char) : List Char → Bool
  | [] => sub.isEmpty
  | c :: cs => sub.isPrefixOf (c :: cs) || containsList sub cs

/-- Model of `s.includes(sub)`. -/
def jsIncludes (s sub : String) : Bool := containsList sub.toList s.toList

/-! ## Trigger parser (`parseTriggers`, htmx.js lines 7–15) -/

/-- `DEFAULT_TRIGGER` constant of the source (htmx.js line 2). -/
def DEFAULT_TRIGGER : String := "click"

/-- Embedding of `parseTriggers` (htmx.js lines 7–15):
`if (!value) return [DEFAULT_TRIGGER];` then split on commas, trim each
entry, drop the falsy (empty) entries. -/
def parseTriggers (value : Option String) : List String :=
  match value with
  | none => [DEFAULT_TRIGGER]
  | some s =>
    if s = "" then [DEFAULT_TRIGGER]
    else ((((splitOnComma s.toList).map jsTrim).filter (· ≠ [])).map
      fun cs => String.mk cs)

/-! ## Interval-segment matching (`setupElement`, htmx.js lines 127–137) -/

/-- Greedy digit scan: the longest digit prefix and the rest. -/
def takeDigits : List Char → List Char × List Char
  | [] => ([], [])
  | c :: cs =>
    if c.isDigit then
      match takeDigits cs with
      | (ds, rest) => (c :: ds, rest)
    else ([], c :: cs)

/-- Successful match data of the regex `^(\d+(?:\.\d+)?)(ms|s)?$`. -/
structure EveryMatch where
  intPart : List Char
  fracPart : Option (List Char)
  unit : Option String
  deriving DecidableEq, Repr

/-- The `(ms|s)?$` tail of the regex: what unit group a remaining suffix
yields, or `none` when the suffix makes the whole match fail. -/
def matchUnitEnd : List Char → Option (Option String)
  | [] => some none
  | ['m', 's'] => some (some "ms")
  | ['s'] => some (some "s")
  | _ => none

/-- Executable model of `raw.match(/^(\d+(?:\.\d+)?)(ms|s)?$/)`
(htmx.js line 129).  Digits are matched greedily; a lone `.` without
following digits makes the whole anchored match fail, as it does for the
regex (the optional fraction group backtracks but the stray `.` can then
never be consumed before `$`). -/
def matchEvery (cs : List Char) : Option EveryMatch :=
  match takeDigits cs with
  | (ds, rest) =>
    if ds = [] then none
    else
      match rest with
      | '.' :: rest2 =>
        (match takeDigits rest2 with
         | (fs, rest3) =>
           if fs = [] then none
           else
             match matchUnitEnd rest3 with
             | some u => some ⟨ds, some fs, u⟩
             | none => none)
      | other =>
        match matchUnitEnd other with
        | some u => some ⟨ds, none, u⟩
        | none => none

/-- Decimal value of a digit list. -/
def digitsToNat (ds : List Char) : Nat :=
  ds.foldl (fun acc c => 10 * acc + (c.toNat - '0'.toNat)) 0

/-- Model of `Number(match[1])` as an exact rational (the matched token is
`<digits>` or `<digits>.<digits>`). -/
def numValue (m : EveryMatch) : ℚ :=
  (digitsToNat m.intPart : ℚ) +
    match m.fracPart with
    | none => 0
    | some fs => (digitsToNat fs : ℚ) / ((10 : ℚ) ^ fs.length)

/-- `const unit = match[2] || "ms"; const interval = unit === "s" ? value * 1000 : value`
(htmx.js lines 134–135). -/
def intervalOf (m : EveryMatch) : ℚ :=
  if m.unit.getD "ms" = "s" then numValue m * 1000 else numValue m

/-- A registration made by `setupElement` for one trigger token:
a one-shot load handler, a repeating interval timer, or an event listener. -/
inductive TriggerReg where
  | load
  | interval (periodMs : ℚ)
  | event (name : String)
  deriving DecidableEq, Repr

/-- What `setupElement`'s per-trigger body (htmx.js lines 116–144) registers
for one trigger token: `"load"` first, then the `every ` interval form
(`trigger.replace("every ", "").trim()` then the regex), dropping the token
when the regex fails; anything else becomes an event listener. -/
def regOf (trigger : String) : Option TriggerReg :=
  if trigger = "load" then some .load
  else if "every ".toList.isPrefixOf trigger.toList then
    match matchEvery (jsTrim (removeFirst "every ".toList trigger.toList)) with
    | none => none
    | some m => some (.interval (intervalOf m))
  else some (.event trigger)

/-- The registrations `setupElement` makes for a trigger attribute value:
one per parsed trigger token, with malformed interval tokens dropped. -/
def setupRegs (triggerAttr : Option String) : List TriggerReg :=
  (parseTriggers triggerAttr).filterMap regOf

/-! ## Parameter collector (`collectParams`, htmx.js lines 17–38) -/

/-- A form control as `collectParams` observes it: its `disabled` flag,
`name` attribute, `type` and `checked` properties and current `value`. -/
structure Control where
  disabled : Bool
  nameAttr : Option String
  type : String
  checked : Bool
  value : Option String
  deriving DecidableEq, Repr

/-- One step of the `document.querySelectorAll(selector).forEach` body of
`collectParams` (htmx.js lines 22–36): skip when disabled, skip without a
(truthy) name, skip unchecked checkbox/radio controls, otherwise
`params.append(name, el.value ?? "")`. -/
def collectStep (params : List (String × String)) (el : Control) :
    List (String × String) :=
  if el.disabled then params
  else
    match el.nameAttr with
    | none => params
    | some name =>
      if name = "" then params
      else if (el.type = "checkbox" ∨ el.type = "radio") ∧ el.checked = false then
        params
      else params ++ [(name, el.value.getD "")]

/-- Embedding of `collectParams` (htmx.js lines 17–38).  The live tree is
abstracted as the `queryAll` function giving the controls matching a
selector, in tree order; the `URLSearchParams` accumulator is the ordered
pair list built by `collectStep`. -/
def collectParams (selector : Option String)
    (queryAll : String → List Control) : List (String × String) :=
  match selector with
  | none => []
  | some s => if s = "" then [] else (queryAll s).foldl collectStep []

/-- The contribution of a single control to the parameter set: `none` when
one of the skip rules of `collectStep` applies, the appended pair otherwise. -/
def contrib (el : Control) : Option (String × String) :=
  if el.disabled then none
  else
    match el.nameAttr with
    | none => none
    | some name =>
      if name = "" then none
      else if (el.type = "checkbox" ∨ el.type = "radio") ∧ el.checked = false then
        none
      else some (name, el.value.getD "")

/-! ## Request URL construction (`requestFor`, htmx.js lines 82–86) -/

/-- One hexadecimal digit character. -/
def hexDigit (n : Nat) : Char :=
  if n < 10 then Char.ofNat ('0'.toNat + n) else Char.ofNat ('A'.toNat + n - 10)

/-- Model of `URLSearchParams` serialization of one character
(`application/x-www-form-urlencoded`, ASCII): unreserved characters kept,
space becomes `+`, anything else percent-encoded. -/
def formEncodeChar (c : Char) : String :=
  if c.isAlphanum ∨ c = '*' ∨ c = '-' ∨ c = '.' ∨ c = '_' then String.mk [c]
  else if c = ' ' then "+"
  else String.mk ['%', hexDigit (c.toNat / 16 % 16), hexDigit (c.toNat % 16)]

/-- Model of `URLSearchParams` serialization of one string. -/
def formEncode (s : String) : String := String.join (s.toList.map formEncodeChar)

/-- One `name=value` fragment of `params.toString()`. -/
def encodePair (p : String × String) : String :=
  formEncode p.1 ++ "=" ++ formEncode p.2

/-- Model of `params.toString()`: the `name=value` fragments joined by `&`. -/
def serializeParams : List (String × String) → String
  | [] => ""
  | [p] => encodePair p
  | p :: q :: rest => encodePair p ++ "&" ++ serializeParams (q :: rest)

/-- `let finalUrl = url; if (params.toString()) { const joiner =
url.includes("?") ? "&" : "?"; finalUrl = url + joiner + params.toString(); }`
(htmx.js lines 82–86). -/
def buildFinalUrl (url : String) (params : List (String × String)) : String :=
  if serializeParams params = "" then url
  else url ++ (if jsIncludes url "?" then "&" else "?") ++ serializeParams params

/-! ## DOM model, target resolver and swap applicator
(htmx.js lines 40–65) -/

/-- A DOM node reference (identity only). -/
structure DomNode where
  id : Nat
  deriving DecidableEq, Repr

/-- An element as the engine sees it: its own node and its attributes
(`getAttribute` returns the attribute's value or `null`). -/
structure Elem where
  node : DomNode
  attrs : List (String × String)

/-- `el.getAttribute(name)`. -/
def Elem.getAttr (el : Elem) (name : String) : Option String :=
  (el.attrs.find? fun p => p.1 = name).map (·.2)

/-- The document state a firing observes: `querySelector`,
`querySelectorAll` over form controls, whether `document.body` exists and
`document.body.getAttribute`. -/
structure Doc where
  query : String → Option DomNode
  queryAll : String → List Control
  bodyExists : Bool
  bodyAttr : String → Option String

/-- Embedding of `resolveTarget` (htmx.js lines 40–46): a truthy
`hx-target` attribute is looked up with `querySelector` (possibly finding
nothing); otherwise the element itself is the target. -/
def resolveTarget (el : Elem) (doc : Doc) : Option DomNode :=
  match el.getAttr "hx-target" with
  | none => some el.node
  | some s => if s = "" then some el.node else doc.query s

/-- Embedding of `resolveIndicator` (htmx.js lines 59–65):
`document.body?.getAttribute("hx-indicator")`, falsy → `null`, otherwise
`querySelector`. -/
def resolveIndicator (doc : Doc) : Option DomNode :=
  match (if doc.bodyExists then doc.bodyAttr "hx-indicator" else none) with
  | none => none
  | some s => if s = "" then none else doc.query s

/-- The mutation `applySwap` performs: nothing, an `outerHTML` assignment,
or an `innerHTML` assignment on the target. -/
inductive SwapAction where
  | noop
  | setOuterHTML (markup : String)
  | setInnerHTML (markup : String)
  deriving DecidableEq, Repr

/-- Embedding of `applySwap` (htmx.js lines 48–57): null target → no-op;
`swap === "outerHTML"` → `target.outerHTML = html`; anything else →
`target.innerHTML = html`. -/
def applySwap (target : Option DomNode) (swap : String) (html : String) :
    SwapAction :=
  match target with
  | none => .noop
  | some _ => if swap = "outerHTML" then .setOuterHTML html else .setInnerHTML html

/-- A node of the markup tree: an element with tag, attributes and
children, or a text node. -/
inductive HNode where
  | elem (tag : String) (attrs : List (String × String)) (children : List HNode)
  | text (s : String)
  deriving Repr

/-- Replace an element node's child list, keeping its tag and attributes
(text nodes are unaffected). -/
def setChildren : HNode → List HNode → HNode
  | .elem t a _, cs => .elem t a cs
  | .text s, _ => .text s

/-- DOM semantics of a `SwapAction` on the target sitting at index `i` of a
sibling list, with `parseHTML` the platform markup parser:
`outerHTML` assignment replaces the node itself in its position by the
parsed markup; `innerHTML` assignment keeps the node, replacing only its
children; no-op leaves the siblings untouched. -/
def runSwapOnSiblings (parseHTML : String → List HNode)
    (siblings : List HNode) (i : Nat) : SwapAction → List HNode
  | .noop => siblings
  | .setOuterHTML m => siblings.take i ++ parseHTML m ++ siblings.drop (i + 1)
  | .setInnerHTML m =>
    siblings.take i ++
      (match siblings.drop i with
       | [] => []
       | n :: rest => setChildren n (parseHTML m) :: rest)

/-! ## Notifier (`emitAfterRequest`, htmx.js lines 67–72) -/

/-- The `{verb, path}` payload nested in the event detail. -/
structure RequestConfig where
  verb : String
  path : String
  deriving DecidableEq, Repr

/-- The `detail` object of the completion event:
`{ requestConfig: { verb, path } }`. -/
structure EvtDetail where
  requestConfig : RequestConfig
  deriving DecidableEq, Repr

/-- A constructed `CustomEvent`: its type name and detail. -/
structure CustomEvt where
  name : String
  detail : EvtDetail
  deriving DecidableEq, Repr

/-- Embedding of `emitAfterRequest` (htmx.js lines 67–72): the
`CustomEvent("htmx:afterRequest", { detail: { requestConfig: { verb, path } } })`
it constructs (the dispatch on `document.body` is recorded in the firing
trace). -/
def emitAfterRequest (verb path : String) : CustomEvt :=
  { name := "htmx:afterRequest",
    detail := { requestConfig := { verb := verb, path := path } } }

/-! ## Request executor (`requestFor`, htmx.js lines 74–112) -/

/-- Outcome of `fetch(finalUrl, ...)` for the firing: a success response
body, a non-success response with its `statusText` and body text, or a
network-level failure with its error message. -/
inductive NetOutcome where
  | success (body : String)
  | httpError (statusText : String) (body : String)
  | networkFailure (message : String)
  deriving DecidableEq, Repr

/-- An observable effect of one firing, in order of occurrence. -/
inductive Ev where
  | indicatorOn (ind : DomNode)
  | indicatorOff (ind : DomNode)
  | fetchReq (url : String) (hxRequestHeader : Bool)
  | swapCall (target : Option DomNode) (swap : String) (html : String)
  | dispatch (e : CustomEvt)
  deriving DecidableEq, Repr

/-- The `<div class="warning">…</div>` error block of the failure paths
(htmx.js lines 101 and 107). -/
def warningDiv (s : String) : String :=
  "<div class=\"warning\">" ++ s ++ "</div>"

/-- Embedding of `requestFor` (htmx.js lines 74–112) as the effect trace of
one firing.  A falsy `hx-get` returns early with no effects.  Otherwise:
collect parameters from `hx-include`, resolve the target, read
`hx-swap || "innerHTML"`, build the final URL, activate the indicator if
one resolves, issue the fetch (with the `HX-Request` header), apply the
swap with the success body / the `text || statusText` warning block /
the error-message warning block, and in the `finally` block deactivate the
indicator and dispatch the completion event on `document.body`. -/
def requestFor (el : Elem) (doc : Doc) (net : String → NetOutcome) : List Ev :=
  match el.getAttr "hx-get" with
  | none => []
  | some url =>
    if url = "" then []
    else
      let params := collectParams (el.getAttr "hx-include") doc.queryAll
      let target := resolveTarget el doc
      let swap := jsOrDefault (el.getAttr "hx-swap") "innerHTML"
      let finalUrl := buildFinalUrl url params
      let indicator := resolveIndicator doc
      (match indicator with
       | some ind => [Ev.indicatorOn ind]
       | none => []) ++
      [Ev.fetchReq finalUrl true] ++
      (match net finalUrl with
       | .success body => [Ev.swapCall target swap body]
       | .httpError statusText body =>
         [Ev.swapCall target swap (warningDiv (jsOrStr body statusText))]
       | .networkFailure message =>
         [Ev.swapCall target swap (warningDiv message)]) ++
      (match indicator with
       | some ind => [Ev.indicatorOff ind]
       | none => []) ++
      (if doc.bodyExists then [Ev.dispatch (emitAfterRequest "get" finalUrl)]
       else [])

/-- Registrations made by `setupElement` (htmx.js lines 114–146) for an
element: it reads `hx-trigger` once, at bind time. -/
def setupElement (el : Elem) : List TriggerReg :=
  setupRegs (el.getAttr "hx-trigger")

/-! ## Theorems -/

/-- C1 counterexample: the trigger parser does NOT always produce a
non-empty descriptor list.  A spec string of only commas parses to the
empty list (no primary-activation fallback), and the sole malformed
interval segment `"every abc"` yields no registration at all. -/
theorem parse_fallback_counterexample :
    parseTriggers (some ",") = [] ∧ setupRegs (some "every abc") = [] := by
  exact ⟨rfl, rfl⟩

/-- C1 (amended): the fallback to the single primary-activation (`click`)
descriptor happens exactly for an absent or empty trigger-spec string; for
any other string the parser returns the trimmed non-empty comma-separated
segments, which can be the empty list (e.g. a string of only commas), with
no fallback. -/
theorem parse_fallback_only_when_absent :
    parseTriggers none = [DEFAULT_TRIGGER] ∧
    parseTriggers (some "") = [DEFAULT_TRIGGER] ∧
    (∀ v, parseTriggers v = [] → ∃ s, v = some s ∧ s ≠ "") := by
  refine ⟨rfl, rfl, ?_⟩
  intro v h
  match v with
  | none => simp [parseTriggers, DEFAULT_TRIGGER] at h
  | some s =>
    refine ⟨s, rfl, ?_⟩
    intro hs
    subst hs
    simp [parseTriggers, DEFAULT_TRIGGER] at h

/-- Witness for `parse_fallback_only_when_absent` at the concrete
trigger-spec `","`. -/
theorem parse_fallback_only_when_absent_witness :
    ∃ s, (some "," : Option String) = some s ∧ s ≠ "" :=
  parse_fallback_only_when_absent.2.2 (some ",") rfl

/-- Any unit group produced by the interval regex is absent, `ms` or `s`. -/
theorem matchUnitEnd_cases (cs : List Char) (u : Option String)
    (h : matchUnitEnd cs = some u) :
    u = none ∨ u = some "ms" ∨ u = some "s" := by
  unfold matchUnitEnd at h
  split at h <;> simp_all

/-- Any match of the interval regex carries an absent, `ms` or `s` unit. -/
theorem matchEvery_unit (cs : List Char) (m : EveryMatch)
    (h : matchEvery cs = some m) :
    m.unit = none ∨ m.unit = some "ms" ∨ m.unit = some "s" := by
  unfold matchEvery at h
  repeat' split at h
  all_goals cases h
  all_goals rename_i u hu
  all_goals rcases matchUnitEnd_cases _ _ hu with h1 | h1 | h1 <;> simp [h1]

/-- The source's interval computation written against the unit group:
`value * 1000` for unit `s`, plain `value` for `ms` or an absent unit. -/
theorem intervalOf_eq (cs : List Char) (m : EveryMatch)
    (h : matchEvery cs = some m) :
    intervalOf m = if m.unit = some "s" then numValue m * 1000 else numValue m := by
  rcases matchEvery_unit cs m h with h1 | h1 | h1 <;>
    simp [intervalOf, h1, Option.getD]

/-- C4: an `every <number><unit?>` segment registers an interval whose
period in milliseconds is `number * 1000` for unit `s` and `number` for
unit `ms` or no unit; a segment starting with `every ` whose numeric token
fails the regex registers nothing.  Concretely `every 2s` gives 2000,
`every 500ms` gives 500 and `every abc` gives no registration. -/
theorem interval_period :
    (∀ (t : String) (m : EveryMatch),
        "every ".toList.isPrefixOf t.toList = true →
        matchEvery (jsTrim (removeFirst "every ".toList t.toList)) = some m →
        regOf t = some (.interval
          (if m.unit = some "s" then numValue m * 1000 else numValue m))) ∧
    (∀ t : String,
        "every ".toList.isPrefixOf t.toList = true →
        matchEvery (jsTrim (removeFirst "every ".toList t.toList)) = none →
        regOf t = none) ∧
    regOf "every 2s" = some (.interval 2000) ∧
    regOf "every 500ms" = some (.interval 500) ∧
    regOf "every abc" = none := by
  refine ⟨?_, ?_, ?_, ?_, by decide⟩
  · intro t m hpre hm
    have ht : t ≠ "load" := by
      intro he; subst he; exact absurd hpre (by decide)
    rw [← intervalOf_eq _ _ hm]
    rw [List.isPrefixOf_iff_prefix] at hpre
    have hpre' : ['e', 'v', 'e', 'r', 'y', ' '] <+: t.data := hpre
    have hm' : matchEvery (jsTrim (removeFirst ['e', 'v', 'e', 'r', 'y', ' '] t.data)) =
        some m := hm
    simp [regOf, ht, hpre', hm']
  · intro t hpre hm
    have ht : t ≠ "load" := by
      intro he; subst he; exact absurd hpre (by decide)
    rw [List.isPrefixOf_iff_prefix] at hpre
    have hpre' : ['e', 'v', 'e', 'r', 'y', ' '] <+: t.data := hpre
    have hm' : matchEvery (jsTrim (removeFirst ['e', 'v', 'e', 'r', 'y', ' '] t.data)) =
        none := hm
    simp [regOf, ht, hpre', hm']
  · have h : matchEvery (jsTrim (removeFirst "every ".toList "every 2s".toList)) =
        some ⟨['2'], none, some "s"⟩ := by decide
    have h2 : digitsToNat ['2'] = 2 := by decide
    unfold regOf
    rw [if_neg (by decide), if_pos (by decide)]
    simp only [h]
    simp [intervalOf, numValue, h2]
    norm_num
  · have h : matchEvery (jsTrim (removeFirst "every ".toList "every 500ms".toList)) =
        some ⟨['5', '0', '0'], none, some "ms"⟩ := by decide
    have h2 : digitsToNat ['5', '0', '0'] = 500 := by decide
    unfold regOf
    rw [if_neg (by decide), if_pos (by decide)]
    simp only [h]
    simp [intervalOf, numValue, h2]

/-- Is this effect an indicator deactivation? -/
def Ev.isIndicatorOff : Ev → Bool
  | .indicatorOff _ => true
  | _ => false

/-- Is this effect a completion-event dispatch? -/
def Ev.isDispatch : Ev → Bool
  | .dispatch _ => true
  | _ => false

/-- The effect trace of a firing whose `hx-get` attribute is truthy,
spelled out branch by branch. -/
theorem requestFor_eq (el : Elem) (doc : Doc) (net : String → NetOutcome)
    (u : String) (hu : el.getAttr "hx-get" = some u) (hne : u ≠ "") :
    requestFor el doc net =
      (match resolveIndicator doc with
       | some ind => [Ev.indicatorOn ind]
       | none => []) ++
      [Ev.fetchReq (buildFinalUrl u
        (collectParams (el.getAttr "hx-include") doc.queryAll)) true] ++
      (match net (buildFinalUrl u
          (collectParams (el.getAttr "hx-include") doc.queryAll)) with
       | .success body =>
         [Ev.swapCall (resolveTarget el doc)
           (jsOrDefault (el.getAttr "hx-swap") "innerHTML") body]
       | .httpError statusText body =>
         [Ev.swapCall (resolveTarget el doc)
           (jsOrDefault (el.getAttr "hx-swap") "innerHTML")
           (warningDiv (jsOrStr body statusText))]
       | .networkFailure message =>
         [Ev.swapCall (resolveTarget el doc)
           (jsOrDefault (el.getAttr "hx-swap") "innerHTML")
           (warningDiv message)]) ++
      (match resolveIndicator doc with
       | some ind => [Ev.indicatorOff ind]
       | none => []) ++
      (if doc.bodyExists then
        [Ev.dispatch (emitAfterRequest "get" (buildFinalUrl u
          (collectParams (el.getAttr "hx-include") doc.queryAll)))]
       else []) := by
  simp only [requestFor, hu]
  rw [if_neg hne]

/-- C2: for a firing with a truthy request path, a resolved loading
indicator and an existing document body, the trace ends with the
deactivation of the indicator followed by the completion-event dispatch,
and each of the two finalizer effects occurs exactly once in the whole
trace — identically in the success, non-success-status and network-failure
branches. -/
theorem finalizer_runs_once (el : Elem) (doc : Doc) (net : String → NetOutcome)
    (u : String) (hu : el.getAttr "hx-get" = some u) (hne : u ≠ "")
    (ind : DomNode) (hind : resolveIndicator doc = some ind)
    (hbody : doc.bodyExists = true) :
    ∃ pre e,
      requestFor el doc net = pre ++ [Ev.indicatorOff ind, Ev.dispatch e] ∧
      (requestFor el doc net).countP Ev.isIndicatorOff = 1 ∧
      (requestFor el doc net).countP Ev.isDispatch = 1 := by
  rw [requestFor_eq el doc net u hu hne, hind, hbody]
  generalize buildFinalUrl u (collectParams (el.getAttr "hx-include")
    doc.queryAll) = f
  cases hnet : net f with
  | success body =>
    refine ⟨[Ev.indicatorOn ind, Ev.fetchReq f true,
      Ev.swapCall (resolveTarget el doc)
        (jsOrDefault (el.getAttr "hx-swap") "innerHTML") body],
      emitAfterRequest "get" f, ?_, ?_, ?_⟩ <;>
      simp [Ev.isIndicatorOff, Ev.isDispatch, List.countP_append,
        List.countP_cons]
  | httpError st body =>
    refine ⟨[Ev.indicatorOn ind, Ev.fetchReq f true,
      Ev.swapCall (resolveTarget el doc)
        (jsOrDefault (el.getAttr "hx-swap") "innerHTML")
        (warningDiv (jsOrStr body st))],
      emitAfterRequest "get" f, ?_, ?_, ?_⟩ <;>
      simp [Ev.isIndicatorOff, Ev.isDispatch, List.countP_append,
        List.countP_cons]
  | networkFailure msg =>
    refine ⟨[Ev.indicatorOn ind, Ev.fetchReq f true,
      Ev.swapCall (resolveTarget el doc)
        (jsOrDefault (el.getAttr "hx-swap") "innerHTML")
        (warningDiv msg)],
      emitAfterRequest "get" f, ?_, ?_, ?_⟩ <;>
      simp [Ev.isIndicatorOff, Ev.isDispatch, List.countP_append,
        List.countP_cons]

/-- A concrete bound element used by witnesses. -/
def elW : Elem := ⟨⟨1⟩, [("hx-get", "/x")]⟩

/-- A concrete document with a resolvable indicator and a body. -/
def docW : Doc := ⟨fun _ => some ⟨5⟩, fun _ => [], true, fun _ => some "#ind"⟩

/-- A concrete always-succeeding network. -/
def netW : String → NetOutcome := fun _ => .success "ok"

/-- A concrete bare document: no indicator, no body. -/
def docBare : Doc := ⟨fun _ => none, fun _ => [], false, fun _ => none⟩

/-- A concrete network answering every request with a 404-style response. -/
def netErr : String → NetOutcome := fun _ => .httpError "Not Found" "oops"

/-- Witness for `finalizer_runs_once` on a concrete element, document,
indicator and network. -/
theorem finalizer_runs_once_witness :
    ∃ pre e,
      requestFor elW docW netW = pre ++ [Ev.indicatorOff ⟨5⟩, Ev.dispatch e] ∧
      (requestFor elW docW netW).countP Ev.isIndicatorOff = 1 ∧
      (requestFor elW docW netW).countP Ev.isDispatch = 1 :=
  finalizer_runs_once elW docW netW "/x" rfl (by decide) ⟨5⟩ rfl rfl

/-- C3 counterexample: on a non-success response with status text
`"Not Found"` and body `"oops"`, the rendered error block is
`<div class="warning">oops</div>` — it carries the response body but NOT
the status text, against the claim that it carries both. -/
theorem error_block_counterexample :
    requestFor ⟨⟨1⟩, [("hx-get", "/x")]⟩
        ⟨fun _ => none, fun _ => [], false, fun _ => none⟩
        (fun _ => .httpError "Not Found" "oops") =
      [Ev.fetchReq "/x" true,
       Ev.swapCall (some ⟨1⟩) "innerHTML" "<div class=\"warning\">oops</div>"] ∧
    containsList "Not Found".toList
      "<div class=\"warning\">oops</div>".toList = false := by
  exact ⟨rfl, by decide⟩

/-- C3 (amended): every failure is rendered by a swap into the same target
with the same strategy the success path would use; a network failure
renders the error message (no status), and a non-success response renders
the response body, falling back to the status text only when the body is
empty (`text || response.statusText`), never both together. -/
theorem error_swap_same_target_strategy (el : Elem) (doc : Doc)
    (net : String → NetOutcome) (u : String)
    (hu : el.getAttr "hx-get" = some u) (hne : u ≠ "") :
    (∀ body,
        net (buildFinalUrl u (collectParams (el.getAttr "hx-include")
          doc.queryAll)) = .success body →
        Ev.swapCall (resolveTarget el doc)
            (jsOrDefault (el.getAttr "hx-swap") "innerHTML") body
          ∈ requestFor el doc net) ∧
    (∀ statusText body,
        net (buildFinalUrl u (collectParams (el.getAttr "hx-include")
          doc.queryAll)) = .httpError statusText body →
        Ev.swapCall (resolveTarget el doc)
            (jsOrDefault (el.getAttr "hx-swap") "innerHTML")
            (warningDiv (jsOrStr body statusText))
          ∈ requestFor el doc net) ∧
    (∀ message,
        net (buildFinalUrl u (collectParams (el.getAttr "hx-include")
          doc.queryAll)) = .networkFailure message →
        Ev.swapCall (resolveTarget el doc)
            (jsOrDefault (el.getAttr "hx-swap") "innerHTML")
            (warningDiv message)
          ∈ requestFor el doc net) := by
  rw [requestFor_eq el doc net u hu hne]
  refine ⟨?_, ?_, ?_⟩
  · intro body hnet; rw [hnet]; simp
  · intro st body hnet; rw [hnet]; simp
  · intro msg hnet; rw [hnet]; simp

/-- Witness for `error_swap_same_target_strategy` on a concrete failing
network. -/
theorem error_swap_same_target_strategy_witness :
    Ev.swapCall (resolveTarget elW docBare)
        (jsOrDefault (elW.getAttr "hx-swap") "innerHTML")
        (warningDiv (jsOrStr "oops" "Not Found"))
      ∈ requestFor elW docBare netErr :=
  (error_swap_same_target_strategy elW docBare netErr "/x" rfl
    (by decide)).2.1 "Not Found" "oops" rfl

/-- One collector step appends exactly the control's contribution. -/
theorem collectStep_eq (acc : List (String × String)) (c : Control) :
    collectStep acc c = acc ++ (contrib c).toList := by
  by_cases hd : c.disabled <;> simp only [collectStep, contrib, hd] <;>
    try simp
  rcases hn : c.nameAttr with _ | name <;> simp only
  · simp
  · by_cases hname : name = "" <;> simp only [hname] <;> try simp
    by_cases hcb : (c.type = "checkbox" ∨ c.type = "radio") ∧ c.checked = false <;>
      simp [hcb]

/-- The collector's fold is the ordered concatenation of the per-control
contributions. -/
theorem foldl_collectStep (l : List Control) (acc : List (String × String)) :
    l.foldl collectStep acc = acc ++ l.filterMap contrib := by
  induction l generalizing acc with
  | nil => simp
  | cons c cs ih =>
    rw [List.foldl_cons, collectStep_eq, ih, List.filterMap_cons]
    cases hc : contrib c <;> simp [hc]

/-- C5: the collected parameter set is exactly the in-tree-order list of
per-control contributions, and a control contributes nothing when it is
disabled, when it is an unchecked checkbox/radio (whatever its value), or
when it has no (truthy) name; any other control contributes its
`(name, current value)` pair. -/
theorem collect_excludes :
    ∀ (s : String) (queryAll : String → List Control),
      (s ≠ "" → collectParams (some s) queryAll = (queryAll s).filterMap contrib) ∧
      (∀ c : Control, c.disabled = true → contrib c = none) ∧
      (∀ c : Control, (c.type = "checkbox" ∨ c.type = "radio") →
        c.checked = false → contrib c = none) ∧
      (∀ c : Control, (c.nameAttr = none ∨ c.nameAttr = some "") →
        contrib c = none) ∧
      (∀ (c : Control) (n : String), c.disabled = false → c.nameAttr = some n →
        n ≠ "" → ((c.type = "checkbox" ∨ c.type = "radio") → c.checked = true) →
        contrib c = some (n, c.value.getD "")) := by
  intro s queryAll
  refine ⟨?_, ?_, ?_, ?_, ?_⟩
  · intro hs
    simp only [collectParams, if_neg hs]
    exact foldl_collectStep _ _
  · intro c hd; simp [contrib, hd]
  · intro c htype hch
    rcases hn : c.nameAttr with _ | name <;>
      by_cases hd : c.disabled <;> simp [contrib, hd, hn, htype, hch]
  · intro c hn
    rcases hn with hn | hn <;> by_cases hd : c.disabled <;>
      simp [contrib, hd, hn]
  · intro c n hd hn hname hch
    simp only [contrib, hd, Bool.false_eq_true, if_false, hn, if_neg hname]
    by_cases hcb : c.type = "checkbox" ∨ c.type = "radio"
    · simp [hcb, hch hcb]
    · simp [hcb]

/-- A concrete control list for the collector witness: an enabled text
input, a disabled one, an unchecked checkbox and a nameless input. -/
def qaW : String → List Control := fun _ =>
  [⟨false, some "a", "text", false, some "v"⟩,
   ⟨true, some "b", "text", false, some "w"⟩,
   ⟨false, some "c", "checkbox", false, some "evil"⟩,
   ⟨false, none, "text", false, some "y"⟩]

/-- Witness for `collect_excludes` on the concrete control list `qaW`:
only the enabled, named, non-checkbox control contributes. -/
theorem collect_excludes_witness :
    collectParams (some "#form input") qaW =
      (qaW "#form input").filterMap contrib ∧
    contrib ⟨true, some "b", "text", false, some "w"⟩ = none ∧
    contrib ⟨false, some "c", "checkbox", false, some "evil"⟩ = none :=
  ⟨(collect_excludes "#form input" qaW).1 (by decide),
   (collect_excludes "#form input" qaW).2.1 _ rfl,
   (collect_excludes "#form input" qaW).2.2.1 _ (Or.inl rfl) rfl⟩

/-- C6: every completion event dispatched by a firing is the
`htmx:afterRequest` custom event on the document body, whose detail
payload carries the verb `"get"` and, as its path, the final request URL
string built from the element's `hx-get` attribute. -/
theorem notification_shape (el : Elem) (doc : Doc) (net : String → NetOutcome)
    (e : CustomEvt) (h : Ev.dispatch e ∈ requestFor el doc net) :
    e.name = "htmx:afterRequest" ∧
    e.detail.requestConfig.verb = "get" ∧
    ∃ u, el.getAttr "hx-get" = some u ∧ u ≠ "" ∧
      e.detail.requestConfig.path =
        buildFinalUrl u (collectParams (el.getAttr "hx-include") doc.queryAll) := by
  rcases hu : el.getAttr "hx-get" with _ | u
  · simp [requestFor, hu] at h
  · by_cases hne : u = ""
    · subst hne; simp [requestFor, hu] at h
    · rw [requestFor_eq el doc net u hu hne] at h
      rcases hind : resolveIndicator doc with _ | ind <;>
        rcases hnet : net (buildFinalUrl u (collectParams
          (el.getAttr "hx-include") doc.queryAll)) with body | ⟨st, body⟩ | msg <;>
        cases hb : doc.bodyExists <;>
        rw [hind, hnet, hb] at h <;> simp at h <;>
        (subst h; exact ⟨rfl, rfl, u, rfl, hne, rfl⟩)

/-- Witness for `notification_shape` on a concrete firing. -/
theorem notification_shape_witness :
    (emitAfterRequest "get" "/x").name = "htmx:afterRequest" ∧
    (emitAfterRequest "get" "/x").detail.requestConfig.verb = "get" ∧
    ∃ u, elW.getAttr "hx-get" = some u ∧ u ≠ "" ∧
      (emitAfterRequest "get" "/x").detail.requestConfig.path =
        buildFinalUrl u (collectParams (elW.getAttr "hx-include")
          docW.queryAll) :=
  notification_shape elW docW netW (emitAfterRequest "get" "/x") (by decide)

/-- Serialized non-empty parameter lists are non-empty strings. -/
theorem one_le_length_serialize (p : String × String)
    (ps : List (String × String)) :
    1 ≤ (serializeParams (p :: ps)).length := by
  have hm : ("=" : String).length = 1 := by decide
  have ha : ("&" : String).length = 1 := by decide
  cases ps <;>
    simp [serializeParams, encodePair, String.length_append, hm, ha] <;>
    omega

/-- C7: an empty parameter set leaves the declared path untouched; a
non-empty one is appended as a query string, joined with `&` when the
path already contains `?` and with `?` otherwise, so the declared path
(with any existing query content) stays as a prefix of the final URL. -/
theorem query_string_append :
    ∀ (url : String) (p : String × String) (ps : List (String × String)),
      buildFinalUrl url [] = url ∧
      serializeParams (p :: ps) ≠ "" ∧
      buildFinalUrl url (p :: ps) =
        url ++ (if jsIncludes url "?" then "&" else "?") ++
          serializeParams (p :: ps) ∧
      ∃ rest, buildFinalUrl url (p :: ps) = url ++ rest := by
  intro url p ps
  have hne : serializeParams (p :: ps) ≠ "" := by
    intro h
    have h1 := one_le_length_serialize p ps
    rw [h] at h1
    exact absurd h1 (by decide)
  refine ⟨rfl, hne, ?_, ?_⟩
  · simp [buildFinalUrl, hne]
  · exact ⟨(if jsIncludes url "?" then "&" else "?") ++ serializeParams (p :: ps),
      by simp [buildFinalUrl, hne, String.append_assoc]⟩

/-- C8: with a non-null target, the node-replacing strategy (the code's
`"outerHTML"`, the spec's `"replace-node"`) replaces the target node itself
at its position among its siblings by the parsed markup, while the default
(`"innerHTML"`, the spec's `"replace-contents"`) and every other strategy
name keep the target node in place (same tag and attributes) and replace
only its children. -/
theorem swap_strategy_semantics :
    ∀ (parseHTML : String → List HNode) (pre post : List HNode)
      (tag : String) (attrs : List (String × String)) (children : List HNode)
      (tgt : DomNode) (html s : String),
      runSwapOnSiblings parseHTML (pre ++ HNode.elem tag attrs children :: post)
          pre.length (applySwap (some tgt) "outerHTML" html) =
        pre ++ parseHTML html ++ post ∧
      (s ≠ "outerHTML" →
        runSwapOnSiblings parseHTML (pre ++ HNode.elem tag attrs children :: post)
            pre.length (applySwap (some tgt) s html) =
          pre ++ HNode.elem tag attrs (parseHTML html) :: post) := by
  intro parseHTML pre post tag attrs children tgt html s
  have hsplit : pre ++ HNode.elem tag attrs children :: post =
      (pre ++ [HNode.elem tag attrs children]) ++ post := by simp
  constructor
  · simp only [applySwap, if_pos, runSwapOnSiblings]
    rw [List.take_left, hsplit, List.drop_left' (by simp)]
  · intro hs
    simp only [applySwap, if_neg hs, runSwapOnSiblings]
    rw [List.take_left, List.drop_left]
    simp [setChildren]

/-- Witness for `swap_strategy_semantics` at a concrete unknown strategy
name. -/
theorem swap_strategy_semantics_witness :
    runSwapOnSiblings (fun _ => [HNode.text "hi"])
        ([] ++ HNode.elem "div" [] [HNode.text "old"] :: [])
        (List.length ([] : List HNode)) (applySwap (some ⟨1⟩) "outerHTML" "<b>hi</b>") =
      [] ++ [HNode.text "hi"] ++ [] ∧
    runSwapOnSiblings (fun _ => [HNode.text "hi"])
        ([] ++ HNode.elem "div" [] [HNode.text "old"] :: [])
        (List.length ([] : List HNode)) (applySwap (some ⟨1⟩) "bogus-strategy" "<b>hi</b>") =
      [] ++ HNode.elem "div" [] [HNode.text "hi"] :: [] :=
  ⟨(swap_strategy_semantics (fun _ => [HNode.text "hi"]) [] [] "div" []
      [HNode.text "old"] ⟨1⟩ "<b>hi</b>" "bogus-strategy").1,
   (swap_strategy_semantics (fun _ => [HNode.text "hi"]) [] [] "div" []
      [HNode.text "old"] ⟨1⟩ "<b>hi</b>" "bogus-strategy").2 (by decide)⟩

/-- C9: when the target selector matches no node the resolved target is
null, the swap is a no-op action that leaves any sibling tree untouched
(and raises nothing — all functions are total); when no target selector
attribute is present, the declaring element itself is the target. -/
theorem missing_target_noop :
    ∀ (el : Elem) (doc : Doc) (sel swap html : String)
      (parseHTML : String → List HNode) (siblings : List HNode) (i : Nat),
      (el.getAttr "hx-target" = some sel → sel ≠ "" → doc.query sel = none →
        resolveTarget el doc = none ∧
        applySwap (resolveTarget el doc) swap html = .noop ∧
        runSwapOnSiblings parseHTML siblings i
          (applySwap (resolveTarget el doc) swap html) = siblings) ∧
      (el.getAttr "hx-target" = none → resolveTarget el doc = some el.node) := by
  intro el doc sel swap html parseHTML siblings i
  constructor
  · intro hattr hne hq
    have hrt : resolveTarget el doc = none := by
      simp [resolveTarget, hattr, hne, hq]
    exact ⟨hrt, by simp [hrt, applySwap],
      by simp [hrt, applySwap, runSwapOnSiblings]⟩
  · intro hattr
    simp [resolveTarget, hattr]

/-- A concrete element whose target selector matches nothing in `docBare`. -/
def elT : Elem := ⟨⟨2⟩, [("hx-get", "/x"), ("hx-target", "#missing")]⟩

/-- Witness for `missing_target_noop` on the concrete element `elT` and
bare document. -/
theorem missing_target_noop_witness :
    resolveTarget elT docBare = none ∧
    applySwap (resolveTarget elT docBare) "innerHTML" "hi" = .noop ∧
    runSwapOnSiblings (fun _ => []) [HNode.text "t"] 0
      (applySwap (resolveTarget elT docBare) "innerHTML" "hi") =
      [HNode.text "t"] :=
  (missing_target_noop elT docBare "#missing" "innerHTML" "hi"
    (fun _ => []) [HNode.text "t"] 0).1 rfl (by decide) rfl

/-- C10: a firing's behaviour is a function of the element's current
`hx-get`, `hx-include`, `hx-target` and `hx-swap` attributes (and its
identity): two attribute states agreeing on those four yield identical
traces whatever `hx-trigger` says; changing `hx-get` alone changes the
trace of a subsequent firing; and the registrations made at bind time are
a function of `hx-trigger` alone, unaffected by the other attributes. -/
theorem attrs_read_at_firing_time :
    (∀ (e₁ e₂ : Elem) (doc : Doc) (net : String → NetOutcome),
        e₁.node = e₂.node →
        e₁.getAttr "hx-get" = e₂.getAttr "hx-get" →
        e₁.getAttr "hx-include" = e₂.getAttr "hx-include" →
        e₁.getAttr "hx-target" = e₂.getAttr "hx-target" →
        e₁.getAttr "hx-swap" = e₂.getAttr "hx-swap" →
        requestFor e₁ doc net = requestFor e₂ doc net) ∧
    (∀ e₁ e₂ : Elem, e₁.getAttr "hx-trigger" = e₂.getAttr "hx-trigger" →
        setupElement e₁ = setupElement e₂) ∧
    requestFor ⟨⟨1⟩, [("hx-get", "/a")]⟩ docW netW ≠
      requestFor ⟨⟨1⟩, [("hx-get", "/b")]⟩ docW netW ∧
    setupElement ⟨⟨1⟩, [("hx-trigger", "load"), ("hx-get", "/a")]⟩ =
      setupElement ⟨⟨1⟩, [("hx-trigger", "load"), ("hx-get", "/b")]⟩ := by
  refine ⟨?_, ?_, ?_, by decide⟩
  · intro e₁ e₂ doc net hn hg hi ht hs
    simp only [requestFor, resolveTarget, hg, hi, ht, hs, hn]
  · intro e₁ e₂ h
    simp only [setupElement, h]
  · decide

/-- Witness for `attrs_read_at_firing_time`: two attribute states agreeing
on the four request attributes but with different trigger specs fire
identically. -/
theorem attrs_read_at_firing_time_witness :
    requestFor ⟨⟨1⟩, [("hx-get", "/x"), ("hx-trigger", "load")]⟩ docW netW =
      requestFor ⟨⟨1⟩, [("hx-get", "/x"), ("hx-trigger", "every 5s")]⟩ docW netW :=
  attrs_read_at_firing_time.1
    ⟨⟨1⟩, [("hx-get", "/x"), ("hx-trigger", "load")]⟩
    ⟨⟨1⟩, [("hx-get", "/x"), ("hx-trigger", "every 5s")]⟩
    docW netW rfl rfl rfl rfl rfl

/-- Witness for `interval_period` at the concrete segment `"every 2s"`. -/
theorem interval_period_witness :
    regOf "every 2s" = some (.interval
      (if (⟨['2'], none, some "s"⟩ : EveryMatch).unit = some "s"
       then numValue ⟨['2'], none, some "s"⟩ * 1000
       else numValue ⟨['2'], none, some "s"⟩)) :=
  interval_period.1 "every 2s" ⟨['2'], none, some "s"⟩ (by decide) (by decide)

end Htmx
